import Mathlib

/-!
Shallow embedding of the request-processing pipeline of src/beater/server.go
(package beater): request decoding, authorization, size-limited reading,
the processor/reporter pipeline, status responding, the health-check
handler, and the stop sequence.  External collaborators (gzip and zlib
decompressors from the Go standard library, the Processor, the reporter)
are modelled as parameters, exactly at the interface the Go code consumes.
Go errors are modelled by their message strings; a nil error is none.
-/

namespace ApmServer

/-- Bytes of a payload, each in the range of a byte. -/
abbrev Bytes := List Nat

/-- Model of an io.ReadCloser as the data it will yield: it produces
`content` and then either a clean EOF (`terminal = none`) or a read
error with the given message (`terminal = some msg`). -/
structure ByteStream where
  content : Bytes
  terminal : Option String
deriving Repr, DecidableEq

/-- Model of an http.Request: method, header map and optional body.
Header lookup mirrors r.Header.Get, which returns the empty string for
an absent key. -/
structure ProcReq where
  method : String
  headers : List (String × String)
  body : Option ByteStream
deriving Repr, DecidableEq

/-- Model of r.Header.Get(k): the first value stored under k, or the
empty string when the header is absent. -/
def headerGet (hs : List (String × String)) (k : String) : String :=
  match hs.lookup k with
  | some v => v
  | none => ""

/-- Model of subtle.ConstantTimeCompare on byte slices: 0 when the
lengths differ, otherwise 1 exactly when the or-accumulation of the
bytewise xors is zero. -/
def constantTimeCompare (x y : List Nat) : Nat :=
  if x.length ≠ y.length then 0
  else if (List.zipWith Nat.xor x y).foldl Nat.lor 0 = 0 then 1 else 0

/-- Model of the Go conversion from string to byte slice, at codepoint
granularity: equality of the resulting lists coincides with equality of
the strings, which is the only property the comparison observes. -/
def strBytes (s : String) : List Nat := s.data.map Char.toNat

/-- Message of errInvalidToken in server.go. -/
def errInvalidToken : String := "invalid token"

/-- Message of errPOSTRequestOnly in server.go. -/
def errPOSTRequestOnly : String := "only POST requests are supported"

/-- Helper of the model of strings.Split with a single-space separator:
acc is the chunk read so far, a space closes the chunk. -/
def splitSpaceAux : List Char → List Char → List String
  | [], acc => [String.mk acc]
  | c :: cs, acc =>
      if c = ' ' then String.mk acc :: splitSpaceAux cs []
      else splitSpaceAux cs (acc ++ [c])

/-- Model of strings.Split(s, a-single-space): the empty string yields
one empty part, every space separates two parts. -/
def splitSpace (s : String) : List String := splitSpaceAux s.data []

/-- Model of isAuthorized: true unconditionally when no secret token is
configured; otherwise the Authorization header must split on a single
space into exactly two parts, the first being the literal Bearer, and
the second must equal the secret under the constant-time comparison. -/
def isAuthorized (req : ProcReq) (secretToken : String) : Bool :=
  if secretToken = "" then true
  else
    match splitSpace (headerGet req.headers "Authorization") with
    | [scheme, token] =>
        scheme == "Bearer" &&
          (constantTimeCompare (strBytes token) (strBytes secretToken) == 1)
    | _ => false

/-- The two decompressor constructors of the Go standard library
(gzip.NewReader and zlib.NewReader), external to this repository: each
either fails at construction with an error message, or yields the
decompressed stream. -/
structure Decompressors where
  gunzip : ByteStream → Except String ByteStream
  inflate : ByteStream → Except String ByteStream

/-- Model of decodeData: reject any Content-Type other than
application/json, reject a missing body, then dispatch on
Content-Encoding: deflate wraps the body with the zlib decompressor,
gzip with the gzip decompressor, and any other value passes the body
through unmodified. -/
def decodeData (D : Decompressors) (req : ProcReq) : Except String ByteStream :=
  if headerGet req.headers "Content-Type" ≠ "application/json" then
    .error ("invalid content type: " ++ headerGet req.headers "Content-Type")
  else
    match req.body with
    | none => .error "No content supplied"
    | some reader =>
      if headerGet req.headers "Content-Encoding" = "deflate" then
        D.inflate reader
      else if headerGet req.headers "Content-Encoding" = "gzip" then
        D.gunzip reader
      else .ok reader

/-- Model of ioutil.ReadAll over io.LimitReader(reader, maxSize): when
the stream holds at least maxSize bytes the limited reader stops at
maxSize bytes with a clean EOF and the terminal state of the stream is
never observed; otherwise everything is read and the terminal state
decides between success and a read error. -/
def readAllLimited (s : ByteStream) (maxSize : Nat) : Except String Bytes :=
  if maxSize ≤ s.content.length then .ok (s.content.take maxSize)
  else
    match s.terminal with
    | none => .ok s.content
    | some e => .error e

/-- The Processor collaborator interface: Validate yields an error
message or nil, Transform yields an event list or an error message.
Events are opaque to this core and modelled as naturals. -/
structure Processor where
  validate : Bytes → Option String
  transform : Bytes → Except String (List Nat)

/-- The reporter collaborator: consumes an event list and yields an
error message or nil. -/
abbrev Reporter := List Nat → Option String

/-- Tail of processRequest after the buffer has been read: validate,
transform, report, short-circuiting to 400, 400, 503 respectively, and
202 with no error when all succeed. -/
def handleBuf (p : Processor) (report : Reporter) (buf : Bytes) : Nat × Option String :=
  match p.validate buf with
  | some e => (400, some e)
  | none =>
    match p.transform buf with
    | .error e => (400, some e)
    | .ok list =>
      match report list with
      | some e => (503, some e)
      | none => (202, none)

/-- Model of processRequest: method check, decode, size-limited read,
then the validate/transform/report tail. -/
def processRequest (D : Decompressors) (r : ProcReq) (p : Processor)
    (maxSize : Nat) (report : Reporter) : Nat × Option String :=
  if r.method ≠ "POST" then (405, some errPOSTRequestOnly)
  else
    match decodeData D r with
    | .error e => (400, some ("Decoding error: " ++ e))
    | .ok reader =>
      match readAllLimited reader maxSize with
      | .error e => (500, some ("Data read error: " ++ e))
      | .ok buf => handleBuf p report buf

/-- Helper for the model of strings.Contains: does sub occur as a
contiguous run inside l. -/
def hasSubstrList (sub : List Char) : List Char → Bool
  | [] => List.isPrefixOf sub []
  | c :: cs => List.isPrefixOf sub (c :: cs) || hasSubstrList sub cs

/-- Model of strings.Contains(s, sub). -/
def hasSubstr (s sub : String) : Bool := hasSubstrList sub.data s.data

/-- Model of acceptsJSON: the Accept header contains the wildcard media
range or the literal application/json. -/
def acceptsJSON (r : ProcReq) : Bool :=
  hasSubstr (headerGet r.headers "Accept") "*/*" ||
    hasSubstr (headerGet r.headers "Accept") "application/json"

/-- Lower-case hexadecimal digit for a value below 16. -/
def hexDigit (n : Nat) : Char :=
  if n < 10 then Char.ofNat (48 + n) else Char.ofNat (87 + n)

/-- Escape of the form backslash-u followed by four hex digits, as
produced by encoding/json for control and HTML-significant characters. -/
def uEscape (n : Nat) : String :=
  "\\u" ++ String.singleton (hexDigit (n / 4096 % 16))
    ++ String.singleton (hexDigit (n / 256 % 16))
    ++ String.singleton (hexDigit (n / 16 % 16))
    ++ String.singleton (hexDigit (n % 16))

/-- Escaping of one character inside a JSON string, following the
default encoder of encoding/json (HTML-significant characters and the
line and paragraph separators included). -/
def goEscapeChar (c : Char) : String :=
  if c = '"' then "\\\""
  else if c = '\\' then "\\\\"
  else if c = '\n' then "\\n"
  else if c = '\r' then "\\r"
  else if c = '\t' then "\\t"
  else if c = '<' ∨ c = '>' ∨ c = '&' then uEscape c.toNat
  else if c.toNat < 32 then uEscape c.toNat
  else if c.toNat = 8232 ∨ c.toNat = 8233 then uEscape c.toNat
  else String.singleton c

/-- Concatenation of the escapes of every character. -/
def concatMapEsc : List Char → String
  | [] => ""
  | c :: cs => goEscapeChar c ++ concatMapEsc cs

/-- JSON string literal for s under the encoding/json escaping. -/
def goQuote (s : String) : String :=
  "\"" ++ concatMapEsc s.data ++ "\""

/-- Model of sendJSON applied to the singleton error map built in
sendStatus: json.Marshal of a one-entry map from the key error to the
message, which always succeeds. -/
def marshalErrorObj (msg : String) : String :=
  "\x7b\"error\":" ++ goQuote msg ++ "\x7d"

/-- The three process-wide monitoring counters of server.go. -/
structure Counters where
  requestCounter : Nat
  responseValid : Nat
  responseErrors : Nat
deriving Repr, DecidableEq

/-- Observable outcome of writing a response: the Content-Type header,
the status code and the body text. -/
structure HttpResponse where
  contentType : String
  status : Nat
  body : String
deriving Repr, DecidableEq

/-- Model of sendStatus: negotiate the content type from acceptsJSON,
write the code; on nil error count a valid response and write no body;
on an error count an error response and write the marshalled error
object when JSON was negotiated, the raw message otherwise. -/
def sendStatus (r : ProcReq) (code : Nat) (err : Option String)
    (c : Counters) : HttpResponse × Counters :=
  let ct := if acceptsJSON r then "application/json"
            else "text/plain; charset=utf-8"
  match err with
  | none =>
      (⟨ct, code, ""⟩, { c with responseValid := c.responseValid + 1 })
  | some msg =>
      let body := if acceptsJSON r then marshalErrorObj msg else msg
      (⟨ct, code, body⟩, { c with responseErrors := c.responseErrors + 1 })

/-- Model of the health-check handler registered in newMuxer: bump the
request counter, write status 200, bump the valid-response counter.  It
is registered directly on the mux, with no auth wrapper, and reads
nothing from the request. -/
def healthcheckHandler (c : Counters) : Nat × Counters :=
  let c1 := { c with requestCounter := c.requestCounter + 1 }
  (200, { c1 with responseValid := c1.responseValid + 1 })

/-- Counter state after n successive calls of the health-check handler. -/
def healthcheckIter : Nat → Counters → Counters
  | 0, c => c
  | n + 1, c => healthcheckIter n (healthcheckHandler c).2

/-- Outcomes of the two collaborator calls made by stop: the result of
server.Shutdown under the timeout-bounded context, and the result
server.Close would give if called. -/
structure StopInput where
  shutdownErr : Option String
  closeErr : Option String
deriving Repr, DecidableEq

/-- Observable trace of stop: whether server.Close was invoked, the
error messages logged in order, and the error stop hands back to its
caller. -/
structure StopTrace where
  closeCalled : Bool
  logged : List String
  propagated : Option String
deriving Repr, DecidableEq

/-- Model of stop: when Shutdown succeeds nothing more happens; when it
fails its error is logged and Close is invoked, whose error, if any, is
logged as well.  stop returns no value, so nothing is ever propagated. -/
def stop (i : StopInput) : StopTrace :=
  match i.shutdownErr with
  | none => ⟨false, [], none⟩
  | some e =>
    match i.closeErr with
    | none => ⟨true, [e], none⟩
    | some e2 => ⟨true, [e, e2], none⟩

/-! Helper lemmas. -/

theorem lor_eq_zero_iff (a b : Nat) : a ||| b = 0 ↔ a = 0 ∧ b = 0 := by
  constructor
  · intro h
    constructor
    · apply Nat.zero_of_testBit_eq_false
      intro i
      have hc := congrArg (fun n => n.testBit i) h
      simp only [Nat.testBit_lor, Nat.zero_testBit, Bool.or_eq_false_iff] at hc
      exact hc.1
    · apply Nat.zero_of_testBit_eq_false
      intro i
      have hc := congrArg (fun n => n.testBit i) h
      simp only [Nat.testBit_lor, Nat.zero_testBit, Bool.or_eq_false_iff] at hc
      exact hc.2
  · rintro ⟨rfl, rfl⟩; rfl

theorem foldl_lor_eq_zero (l : List Nat) (acc : Nat) :
    l.foldl Nat.lor acc = 0 ↔ acc = 0 ∧ ∀ a ∈ l, a = 0 := by
  induction l generalizing acc with
  | nil => simp
  | cons b t ih =>
      simp only [List.foldl_cons, ih, List.mem_cons]
      constructor
      · rintro ⟨hor, ht⟩
        have := (lor_eq_zero_iff acc b).mp hor
        exact ⟨this.1, fun a ha => ha.elim (fun h => h ▸ this.2) (ht a)⟩
      · rintro ⟨hacc, hall⟩
        exact ⟨(lor_eq_zero_iff acc b).mpr ⟨hacc, hall b (Or.inl rfl)⟩,
          fun a ha => hall a (Or.inr ha)⟩

theorem zipWith_xor_all_zero (x : List Nat) : ∀ y : List Nat,
    x.length = y.length →
    ((∀ a ∈ List.zipWith Nat.xor x y, a = 0) ↔ x = y) := by
  induction x with
  | nil =>
      intro y hy
      cases y with
      | nil => simp
      | cons b t => simp at hy
  | cons a t ih =>
      intro y hy
      cases y with
      | nil => simp at hy
      | cons b u =>
          simp only [List.zipWith_cons_cons, List.mem_cons, List.cons.injEq]
          have hlen : t.length = u.length := by
            simpa using hy
          constructor
          · intro h
            have ha : a = b := Nat.xor_eq_zero.mp (h _ (Or.inl rfl))
            have ht : t = u := (ih u hlen).mp (fun c hc => h c (Or.inr hc))
            exact ⟨ha, ht⟩
          · rintro ⟨rfl, rfl⟩
            intro c hc
            rcases hc with h | h
            · rw [h]; exact Nat.xor_self a
            · exact ((ih t rfl).mpr rfl) c h

theorem constantTimeCompare_eq_one_iff (x y : List Nat) :
    constantTimeCompare x y = 1 ↔ x = y := by
  unfold constantTimeCompare
  by_cases hlen : x.length = y.length
  · rw [if_neg (by simpa using hlen)]
    by_cases hz : (List.zipWith Nat.xor x y).foldl Nat.lor 0 = 0
    · rw [if_pos hz]
      have hall := (foldl_lor_eq_zero _ 0).mp hz
      simp only [true_iff]
      exact (zipWith_xor_all_zero x y hlen).mp hall.2
    · rw [if_neg hz]
      constructor
      · intro h; exact absurd h (by simp)
      · intro h
        subst h
        exact absurd ((foldl_lor_eq_zero _ 0).mpr
          ⟨rfl, (zipWith_xor_all_zero x x rfl).mpr rfl⟩) hz
  · rw [if_pos (by simpa using hlen)]
    constructor
    · intro h; exact absurd h (by simp)
    · intro h; subst h; exact absurd rfl hlen

theorem strBytes_eq_iff (a b : String) : strBytes a = strBytes b ↔ a = b := by
  constructor
  · intro h
    unfold strBytes at h
    have hinj : Function.Injective Char.toNat := by
      intro c1 c2 hc
      exact Char.ofNat_toNat c1 ▸ Char.ofNat_toNat c2 ▸ congrArg Char.ofNat hc
    have hdata : a.data = b.data := List.map_injective_iff.mpr hinj h
    exact congrArg String.mk hdata
  · intro h; rw [h]

theorem splitSpaceAux_no_space (l : List Char) : ∀ acc : List Char, ' ' ∉ l →
    splitSpaceAux l acc = [String.mk (acc ++ l)] := by
  induction l with
  | nil => intro acc h; simp [splitSpaceAux]
  | cons c cs ih =>
      intro acc h
      have hc : ¬(c = ' ') := fun hh => h (hh ▸ List.mem_cons_self c cs)
      rw [splitSpaceAux, if_neg hc, ih _ (fun hm => h (List.mem_cons_of_mem c hm))]
      simp

theorem splitSpaceAux_before_space (l1 l2 : List Char) : ∀ acc : List Char,
    ' ' ∉ l1 →
    splitSpaceAux (l1 ++ ' ' :: l2) acc =
      String.mk (acc ++ l1) :: splitSpaceAux l2 [] := by
  induction l1 with
  | nil => intro acc h; simp [splitSpaceAux]
  | cons c cs ih =>
      intro acc h
      have hc : ¬(c = ' ') := fun hh => h (hh ▸ List.mem_cons_self c cs)
      rw [List.cons_append, splitSpaceAux, if_neg hc,
        ih _ (fun hm => h (List.mem_cons_of_mem c hm))]
      simp

theorem splitSpace_two (x y : String) (hx : ' ' ∉ x.data) (hy : ' ' ∉ y.data) :
    splitSpace (x ++ " " ++ y) = [x, y] := by
  unfold splitSpace
  have hdata : (x ++ " " ++ y).data = x.data ++ ' ' :: y.data := by
    simp [String.data_append]
  rw [hdata, splitSpaceAux_before_space _ _ _ hx, splitSpaceAux_no_space _ _ hy]
  simp

theorem isAuthorized_true_iff (r : ProcReq) (S : String) (hS : S ≠ "") :
    isAuthorized r S = true ↔
      splitSpace (headerGet r.headers "Authorization") = ["Bearer", S] := by
  unfold isAuthorized
  rw [if_neg hS]
  rcases h : splitSpace (headerGet r.headers "Authorization") with _ | ⟨a, _ | ⟨b, _ | ⟨c, v⟩⟩⟩
  · simp
  · simp
  · simp [Bool.and_eq_true, beq_iff_eq, constantTimeCompare_eq_one_iff, strBytes_eq_iff]
  · simp

/-! Claim theorems. -/

/-- Claim C2: for every request the pair produced by processRequest has
its status among 202, 400, 401, 405, 500 and 503, and carries an error
exactly when the status is not 202. -/
theorem c2_processRequest_invariant (D : Decompressors) (r : ProcReq)
    (p : Processor) (maxSize : Nat) (report : Reporter) :
    ((processRequest D r p maxSize report).1 = 202 ∨
     (processRequest D r p maxSize report).1 = 400 ∨
     (processRequest D r p maxSize report).1 = 401 ∨
     (processRequest D r p maxSize report).1 = 405 ∨
     (processRequest D r p maxSize report).1 = 500 ∨
     (processRequest D r p maxSize report).1 = 503) ∧
    ((processRequest D r p maxSize report).2 ≠ none ↔
     (processRequest D r p maxSize report).1 ≠ 202) := by
  unfold processRequest handleBuf
  repeat' split
  all_goals simp

/-- Claim C3: with an empty configured secret every request is
authorized; with a non-empty secret S authorization succeeds on the
header consisting of Bearer, one space and S, and fails on a different
token, a different scheme, a part count other than two, and an empty or
absent header. -/
theorem c3_isAuthorized_spec (r : ProcReq) (S T : String)
    (hS : S ≠ "") (hSns : ' ' ∉ S.data) (hTns : ' ' ∉ T.data) :
    (isAuthorized r "" = true) ∧
    (headerGet r.headers "Authorization" = "Bearer " ++ S →
      isAuthorized r S = true) ∧
    (headerGet r.headers "Authorization" = "Bearer " ++ T → T ≠ S →
      isAuthorized r S = false) ∧
    (∀ scheme, ' ' ∉ scheme.data → scheme ≠ "Bearer" →
      headerGet r.headers "Authorization" = scheme ++ " " ++ T →
      isAuthorized r S = false) ∧
    ((splitSpace (headerGet r.headers "Authorization")).length ≠ 2 →
      isAuthorized r S = false) ∧
    (headerGet r.headers "Authorization" = "" → isAuthorized r S = false) := by
  have hbearer : ("Bearer " : String) = "Bearer" ++ " " := by decide
  refine ⟨?_, ?_, ?_, ?_, ?_, ?_⟩
  · unfold isAuthorized; rw [if_pos rfl]
  · intro hh
    rw [isAuthorized_true_iff r S hS, hh, hbearer, splitSpace_two _ _ (by decide) hSns]
  · intro hh hT
    rw [← Bool.not_eq_true, isAuthorized_true_iff r S hS, hh, hbearer,
      splitSpace_two _ _ (by decide) hTns]
    simp [hT]
  · intro scheme hsns hsne hh
    rw [← Bool.not_eq_true, isAuthorized_true_iff r S hS, hh,
      splitSpace_two _ _ hsns hTns]
    simp [hsne]
  · intro hlen
    rw [← Bool.not_eq_true, isAuthorized_true_iff r S hS]
    intro heq
    rw [heq] at hlen
    exact hlen rfl
  · intro hh
    rw [← Bool.not_eq_true, isAuthorized_true_iff r S hS, hh]
    intro heq
    have : (splitSpace "").length = 2 := by rw [heq]; rfl
    simp [splitSpace, splitSpaceAux] at this

theorem c3_isAuthorized_spec_witness :
    (("abc" : String) ≠ "" ∧ ' ' ∉ ("abc" : String).data) ∧
    isAuthorized ⟨"POST", [("Authorization", "Bearer abc")], none⟩ "abc" = true := by
  refine ⟨⟨by decide, by decide⟩, ?_⟩
  exact (c3_isAuthorized_spec ⟨"POST", [("Authorization", "Bearer abc")], none⟩
    "abc" "xyz" (by decide) (by decide) (by decide)).2.1 (by decide)

/-! Concrete instances used by witnesses and counterexamples. -/

/-- Decompressors that pass the stream through unchanged. -/
def idDecomp : Decompressors := ⟨fun s => Except.ok s, fun s => Except.ok s⟩

/-- Decompressors that tag the stream so the two wrappings are
distinguishable. -/
def tagDecomp : Decompressors :=
  ⟨fun s => Except.ok ⟨0 :: s.content, s.terminal⟩,
   fun s => Except.ok ⟨1 :: s.content, s.terminal⟩⟩

/-- Reporter that always succeeds. -/
def noopReport : Reporter := fun _ => none

/-- Processor that accepts everything and transforms to no events. -/
def okProcessor : Processor := ⟨fun _ => none, fun _ => Except.ok []⟩

/-- Processor whose validation rejects every buffer. -/
def rejectProcessor : Processor :=
  ⟨fun _ => some "rejected", fun _ => Except.ok []⟩

/-- Processor whose validation flags exactly the buffer holding the
single byte 7, making the buffer that reaches Validate observable. -/
def probeProcessor : Processor :=
  ⟨fun buf => if buf = [7] then some "saw-truncated" else none,
   fun _ => Except.ok []⟩

/-- Request with a JSON content type, no encoding and the one-byte body
9. -/
def postJsonReq : ProcReq :=
  ⟨"POST", [("Content-Type", "application/json")], some ⟨[9], none⟩⟩

/-- POST request whose three-byte body exceeds a one-byte cap. -/
def oversizeReq : ProcReq :=
  ⟨"POST", [("Content-Type", "application/json")], some ⟨[7, 7, 7], none⟩⟩

/-- Request that accepts JSON responses. -/
def acceptJsonReq : ProcReq := ⟨"POST", [("Accept", "application/json")], none⟩

/-- Request whose Accept header matches neither negotiated form. -/
def acceptXmlReq : ProcReq := ⟨"POST", [("Accept", "text/xml")], none⟩

/-- GET request used against the method check. -/
def getReq : ProcReq := ⟨"GET", [], none⟩

/-! More helper lemmas. -/

theorem concatMapEsc_plain (l : List Char)
    (h : ∀ ch ∈ l, goEscapeChar ch = String.singleton ch) :
    concatMapEsc l = String.mk l := by
  induction l with
  | nil => rfl
  | cons c cs ih =>
      rw [concatMapEsc, h c (List.mem_cons_self c cs),
        ih (fun ch hm => h ch (List.mem_cons_of_mem c hm))]
      rfl

theorem marshalErrorObj_plain (msg : String)
    (h : ∀ ch ∈ msg.data, goEscapeChar ch = String.singleton ch) :
    marshalErrorObj msg = "\x7b\"error\":\"" ++ msg ++ "\"\x7d" := by
  unfold marshalErrorObj goQuote
  rw [concatMapEsc_plain msg.data h]
  refine congrArg String.mk ?_
  simp only [String.data_append, List.append_assoc]
  rfl

/-- Claim C4: decodeData fails whenever Content-Type is not exactly
application/json; with a present body a gzip Content-Encoding hands the
body to the gzip decompressor, deflate hands it to the zlib
decompressor, and every other value yields the body unmodified. -/
theorem c4_decodeData_spec (D : Decompressors) (r : ProcReq) :
    (headerGet r.headers "Content-Type" ≠ "application/json" →
      decodeData D r =
        Except.error ("invalid content type: "
          ++ headerGet r.headers "Content-Type")) ∧
    (∀ b, headerGet r.headers "Content-Type" = "application/json" →
      r.body = some b →
      (headerGet r.headers "Content-Encoding" = "gzip" →
        decodeData D r = D.gunzip b) ∧
      (headerGet r.headers "Content-Encoding" = "deflate" →
        decodeData D r = D.inflate b) ∧
      (headerGet r.headers "Content-Encoding" ≠ "gzip" →
        headerGet r.headers "Content-Encoding" ≠ "deflate" →
        decodeData D r = Except.ok b)) := by
  constructor
  · intro hct
    unfold decodeData
    rw [if_pos hct]
  · intro b hct hb
    refine ⟨?_, ?_, ?_⟩
    · intro henc
      unfold decodeData
      rw [if_neg (not_not_intro hct), hb, henc]
      rfl
    · intro henc
      unfold decodeData
      rw [if_neg (not_not_intro hct), hb, henc]
      rfl
    · intro h1 h2
      unfold decodeData
      rw [if_neg (not_not_intro hct), hb]
      show (if headerGet r.headers "Content-Encoding" = "deflate" then
          D.inflate b
        else if headerGet r.headers "Content-Encoding" = "gzip" then
          D.gunzip b
        else Except.ok b) = Except.ok b
      rw [if_neg h2, if_neg h1]

theorem c4_decodeData_spec_witness :
    headerGet postJsonReq.headers "Content-Type" = "application/json" ∧
    headerGet [("Content-Type", "application/json"),
      ("Content-Encoding", "gzip")] "Content-Encoding" = "gzip" ∧
    decodeData tagDecomp ⟨"POST", [("Content-Type", "application/json"),
      ("Content-Encoding", "gzip")], some ⟨[5], none⟩⟩ =
      tagDecomp.gunzip ⟨[5], none⟩ := by
  refine ⟨by decide, by decide, ?_⟩
  exact ((c4_decodeData_spec tagDecomp ⟨"POST",
    [("Content-Type", "application/json"), ("Content-Encoding", "gzip")],
    some ⟨[5], none⟩⟩).2 ⟨[5], none⟩ (by decide) rfl).1 (by decide)

/-- Claim C5: the failure response format follows the Accept header:
when it contains the wildcard range or application/json the content
type is application/json and the body is the marshalled JSON object
with the single key error; otherwise the content type is plain text and
the body is the raw message.  For a message whose characters need no
escaping the marshalled object is literally the braced error object. -/
theorem c5_sendStatus_format (r : ProcReq) (code : Nat) (msg : String)
    (c : Counters) :
    ((hasSubstr (headerGet r.headers "Accept") "*/*" = true ∨
      hasSubstr (headerGet r.headers "Accept") "application/json" = true) →
      (sendStatus r code (some msg) c).1.contentType = "application/json" ∧
      (sendStatus r code (some msg) c).1.body = marshalErrorObj msg) ∧
    ((∀ ch ∈ msg.data, goEscapeChar ch = String.singleton ch) →
      marshalErrorObj msg = "\x7b\"error\":\"" ++ msg ++ "\"\x7d") ∧
    ((hasSubstr (headerGet r.headers "Accept") "*/*" = false ∧
      hasSubstr (headerGet r.headers "Accept") "application/json" = false) →
      (sendStatus r code (some msg) c).1.contentType =
        "text/plain; charset=utf-8" ∧
      (sendStatus r code (some msg) c).1.body = msg) := by
  refine ⟨?_, marshalErrorObj_plain msg, ?_⟩
  · intro h
    have hj : acceptsJSON r = true := by
      unfold acceptsJSON
      rcases h with h | h <;> simp [h]
    simp [sendStatus, hj]
  · intro h
    have hj : acceptsJSON r = false := by
      unfold acceptsJSON
      simp [h.1, h.2]
    simp [sendStatus, hj]

theorem c5_sendStatus_format_witness :
    ((sendStatus acceptJsonReq 400 (some "boom") ⟨0, 0, 0⟩).1.contentType =
        "application/json" ∧
      (sendStatus acceptJsonReq 400 (some "boom") ⟨0, 0, 0⟩).1.body =
        marshalErrorObj "boom") ∧
    marshalErrorObj "boom" = "\x7b\"error\":\"" ++ "boom" ++ "\"\x7d" ∧
    ((sendStatus acceptXmlReq 400 (some "boom") ⟨0, 0, 0⟩).1.contentType =
        "text/plain; charset=utf-8" ∧
      (sendStatus acceptXmlReq 400 (some "boom") ⟨0, 0, 0⟩).1.body = "boom") :=
  ⟨(c5_sendStatus_format acceptJsonReq 400 "boom" ⟨0, 0, 0⟩).1
      (Or.inr (by decide)),
   (c5_sendStatus_format acceptJsonReq 400 "boom" ⟨0, 0, 0⟩).2.1 (by decide),
   (c5_sendStatus_format acceptXmlReq 400 "boom" ⟨0, 0, 0⟩).2.2
      ⟨by decide, by decide⟩⟩

theorem handleBuf_ne_500 (p : Processor) (report : Reporter) (buf : Bytes) :
    (handleBuf p report buf).1 ≠ 500 := by
  unfold handleBuf
  repeat' split
  all_goals simp

theorem readAllLimited_oversize (s : ByteStream) (maxSize : Nat)
    (h : maxSize < s.content.length) :
    readAllLimited s maxSize = Except.ok (s.content.take maxSize) := by
  unfold readAllLimited
  rw [if_pos (Nat.le_of_lt h)]

/-- Claim C6 counterexample: a GET request produces status 405, but the
error message is the errPOSTRequestOnly text, not the claimed text
method not allowed. -/
theorem c6_counterexample :
    processRequest idDecomp getReq okProcessor 10 noopReport =
      (405, some errPOSTRequestOnly) ∧
    errPOSTRequestOnly = "only POST requests are supported" ∧
    (processRequest idDecomp getReq okProcessor 10 noopReport).2 ≠
      some "method not allowed" := by
  exact ⟨rfl, rfl, by decide⟩

/-- Claim C6 as amended: for every request whose method is not POST,
processRequest returns status 405 with the error errPOSTRequestOnly,
whose message reads only POST requests are supported, regardless of any
other request data. -/
theorem c6_amended_method_check (D : Decompressors) (r : ProcReq)
    (p : Processor) (maxSize : Nat) (report : Reporter)
    (h : r.method ≠ "POST") :
    processRequest D r p maxSize report = (405, some errPOSTRequestOnly) := by
  unfold processRequest
  rw [if_pos h]

theorem c6_amended_method_check_witness :
    getReq.method ≠ "POST" ∧
    processRequest idDecomp getReq okProcessor 10 noopReport =
      (405, some errPOSTRequestOnly) :=
  ⟨by decide,
   c6_amended_method_check idDecomp getReq okProcessor 10 noopReport
     (by decide)⟩

/-- Claim C7: whenever Validate rejects the read buffer, processRequest
returns status 400 carrying exactly the validation error, with no
wrapping or prefixing of its message. -/
theorem c7_validate_passthrough (D : Decompressors) (r : ProcReq)
    (p : Processor) (maxSize : Nat) (report : Reporter) (s : ByteStream)
    (buf : Bytes) (e : String)
    (hm : r.method = "POST") (hd : decodeData D r = Except.ok s)
    (hr : readAllLimited s maxSize = Except.ok buf)
    (hv : p.validate buf = some e) :
    processRequest D r p maxSize report = (400, some e) := by
  unfold processRequest
  rw [if_neg (not_not_intro hm), hd]
  show (match readAllLimited s maxSize with
    | Except.error e => (500, some ("Data read error: " ++ e))
    | Except.ok buf => handleBuf p report buf) = (400, some e)
  rw [hr]
  show handleBuf p report buf = (400, some e)
  unfold handleBuf
  rw [hv]

theorem c7_validate_passthrough_witness :
    postJsonReq.method = "POST" ∧
    decodeData idDecomp postJsonReq = Except.ok ⟨[9], none⟩ ∧
    readAllLimited ⟨[9], none⟩ 10 = Except.ok [9] ∧
    rejectProcessor.validate [9] = some "rejected" ∧
    processRequest idDecomp postJsonReq rejectProcessor 10 noopReport =
      (400, some "rejected") :=
  ⟨rfl, rfl, rfl, rfl,
   c7_validate_passthrough idDecomp postJsonReq rejectProcessor 10
     noopReport ⟨[9], none⟩ [9] "rejected" rfl rfl rfl rfl⟩

/-- Claim C1 counterexample: a three-byte decompressed body against a
one-byte cap does not produce status 500; Validate is invoked on the
truncated buffer and its verdict decides the outcome. -/
theorem c1_counterexample :
    1 < (ByteStream.mk [7, 7, 7] none).content.length ∧
    probeProcessor.validate [7] = some "saw-truncated" ∧
    processRequest idDecomp oversizeReq probeProcessor 1 noopReport =
      (400, some "saw-truncated") ∧
    (processRequest idDecomp oversizeReq probeProcessor 1 noopReport).1 ≠
      500 := by
  exact ⟨by decide, rfl, rfl, by decide⟩

/-- Claim C1 as amended: when the decompressed body exceeds maxSize the
pipeline never fails with a read error: the limited read succeeds with
the first maxSize bytes, the remainder is discarded, Validate and the
rest of the pipeline run on the truncated buffer, and the status is
never 500. -/
theorem c1_amended_truncation (D : Decompressors) (r : ProcReq)
    (p : Processor) (maxSize : Nat) (report : Reporter) (s : ByteStream)
    (hm : r.method = "POST") (hd : decodeData D r = Except.ok s)
    (hsize : maxSize < s.content.length) :
    readAllLimited s maxSize = Except.ok (s.content.take maxSize) ∧
    processRequest D r p maxSize report =
      handleBuf p report (s.content.take maxSize) ∧
    (processRequest D r p maxSize report).1 ≠ 500 := by
  have hread := readAllLimited_oversize s maxSize hsize
  have hpr : processRequest D r p maxSize report =
      handleBuf p report (s.content.take maxSize) := by
    unfold processRequest
    rw [if_neg (not_not_intro hm), hd]
    show (match readAllLimited s maxSize with
      | Except.error e => (500, some ("Data read error: " ++ e))
      | Except.ok buf => handleBuf p report buf) =
        handleBuf p report (s.content.take maxSize)
    rw [hread]
  exact ⟨hread, hpr, by rw [hpr]; exact handleBuf_ne_500 p report _⟩

theorem c1_amended_truncation_witness :
    oversizeReq.method = "POST" ∧
    decodeData idDecomp oversizeReq = Except.ok ⟨[7, 7, 7], none⟩ ∧
    1 < (ByteStream.mk [7, 7, 7] none).content.length ∧
    (processRequest idDecomp oversizeReq okProcessor 1 noopReport).1 ≠
      500 :=
  ⟨rfl, rfl, by decide,
   (c1_amended_truncation idDecomp oversizeReq okProcessor 1 noopReport
     ⟨[7, 7, 7], none⟩ rfl rfl (by decide)).2.2⟩

/-- Claim C10: when the decompressed body exceeds maxSize the limited
read succeeds with exactly the first maxSize bytes and Validate is
invoked on that truncated buffer: its error is returned as the outcome,
and on its success the remaining pipeline runs on the same truncated
buffer.  The oversize remainder is silently discarded. -/
theorem c10_silent_truncation (D : Decompressors) (r : ProcReq)
    (p : Processor) (maxSize : Nat) (report : Reporter) (s : ByteStream)
    (hm : r.method = "POST") (hd : decodeData D r = Except.ok s)
    (hsize : maxSize < s.content.length) :
    readAllLimited s maxSize = Except.ok (s.content.take maxSize) ∧
    (∀ e, p.validate (s.content.take maxSize) = some e →
      processRequest D r p maxSize report = (400, some e)) ∧
    (p.validate (s.content.take maxSize) = none →
      processRequest D r p maxSize report =
        handleBuf p report (s.content.take maxSize)) := by
  have hread := readAllLimited_oversize s maxSize hsize
  have hpr : processRequest D r p maxSize report =
      handleBuf p report (s.content.take maxSize) := by
    unfold processRequest
    rw [if_neg (not_not_intro hm), hd]
    show (match readAllLimited s maxSize with
      | Except.error e => (500, some ("Data read error: " ++ e))
      | Except.ok buf => handleBuf p report buf) =
        handleBuf p report (s.content.take maxSize)
    rw [hread]
  refine ⟨hread, ?_, fun _ => hpr⟩
  intro e hv
  rw [hpr]
  unfold handleBuf
  rw [hv]

theorem c10_silent_truncation_witness :
    oversizeReq.method = "POST" ∧
    decodeData idDecomp oversizeReq = Except.ok ⟨[7, 7, 7], none⟩ ∧
    1 < (ByteStream.mk [7, 7, 7] none).content.length ∧
    probeProcessor.validate ((ByteStream.mk [7, 7, 7] none).content.take 1) =
      some "saw-truncated" ∧
    processRequest idDecomp oversizeReq probeProcessor 1 noopReport =
      (400, some "saw-truncated") :=
  ⟨rfl, rfl, by decide, rfl,
   (c10_silent_truncation idDecomp oversizeReq probeProcessor 1 noopReport
     ⟨[7, 7, 7], none⟩ rfl rfl (by decide)).2.1 "saw-truncated" rfl⟩

/-- Claim C8 counterexample: when graceful shutdown fails and the
forced close also fails unrecoverably, stop logs both errors but
propagates nothing to its caller: the Go function returns no value, so
no error reaches the process exit path. -/
theorem c8_counterexample :
    stop ⟨some "context deadline exceeded",
        some "use of closed network connection"⟩ =
      ⟨true, ["context deadline exceeded",
        "use of closed network connection"], none⟩ ∧
    (stop ⟨some "context deadline exceeded",
        some "use of closed network connection"⟩).propagated = none :=
  ⟨rfl, rfl⟩

/-- Claim C8 as amended: stop force-closes exactly when shutdown
reports an error; it logs the shutdown error and, when the forced close
also fails, that error as well; no error is ever propagated onward, the
forced-close failure included. -/
theorem c8_amended_stop_behavior (i : StopInput) (e e2 : String) :
    ((stop i).closeCalled = true ↔ i.shutdownErr ≠ none) ∧
    (stop ⟨some e, some e2⟩).logged = [e, e2] ∧
    (stop ⟨some e, none⟩).logged = [e] ∧
    (stop ⟨none, i.closeErr⟩).closeCalled = false ∧
    (stop i).propagated = none := by
  rcases i with ⟨sh, cl⟩
  cases sh <;> cases cl <;> simp [stop]

theorem healthcheckIter_counters (n : Nat) : ∀ c : Counters,
    (healthcheckIter n c).requestCounter = c.requestCounter + n ∧
    (healthcheckIter n c).responseValid = c.responseValid + n ∧
    (healthcheckIter n c).responseErrors = c.responseErrors := by
  induction n with
  | zero => intro c; simp [healthcheckIter]
  | succ m ih =>
      intro c
      have h := ih (healthcheckHandler c).2
      simp only [healthcheckIter, healthcheckHandler] at h ⊢
      refine ⟨?_, ?_, ?_⟩ <;> omega

/-- Claim C9: every call of the health-check handler returns 200,
increments the request counter and the valid-response counter by one,
and leaves the error counter unchanged; over any number of iterated
calls the error counter never moves while the other two grow by the
call count.  The handler reads nothing from the request, so no
authentication is involved. -/
theorem c9_healthcheck_counters (c : Counters) (n : Nat) :
    (healthcheckHandler c).1 = 200 ∧
    (healthcheckHandler c).2.requestCounter = c.requestCounter + 1 ∧
    (healthcheckHandler c).2.responseValid = c.responseValid + 1 ∧
    (healthcheckHandler c).2.responseErrors = c.responseErrors ∧
    (healthcheckIter n c).responseErrors = c.responseErrors ∧
    (healthcheckIter n c).requestCounter = c.requestCounter + n ∧
    (healthcheckIter n c).responseValid = c.responseValid + n := by
  have h := healthcheckIter_counters n c
  exact ⟨rfl, rfl, rfl, rfl, h.2.2, h.1, h.2.1⟩

end ApmServer
